import Mathlib

/-
Verification of the Vasicek closed-form evaluator

The program under study consists of two pure real-valued functions,
vasicek_expectation and vasicek_variance, together with an inline
negative-rate-probability computation using the standard normal CDF.
We embed them over the real numbers and prove the stated properties.
-/

namespace Vasicek

open Filter

/-- The conditional expectation of the short rate,
translated from vasicek_expectation in the source:
returns r_0*exp(-gamma*t) + r_bar*(1 - exp(-gamma*t)). -/
noncomputable def vasicek_expectation (gamma t r_bar r_0 : ℝ) : ℝ :=
  r_0 * Real.exp (-gamma * t) + r_bar * (1 - Real.exp (-gamma * t))

/-- The variance of the short rate, translated from vasicek_variance in the
source: returns sigma**2/(2*gamma)*(1-exp(-2*gamma*t)). -/
noncomputable def vasicek_variance (sigma gamma t : ℝ) : ℝ :=
  sigma ^ 2 / (2 * gamma) * (1 - Real.exp (-2 * gamma * t))

/-- Guarded (total) embedding of vasicek_variance: the division by 2*gamma in
the source is represented by an explicit error branch taken exactly when the
divisor 2*gamma is zero. -/
noncomputable def vasicek_varianceChecked (sigma gamma t : ℝ) : Option ℝ :=
  if 2 * gamma = 0 then none
  else some (sigma ^ 2 / (2 * gamma) * (1 - Real.exp (-2 * gamma * t)))

/-- The expected-rate formula as written in the specification:
r_0 * exp(-gamma*t) + r_bar * (1 - exp(-gamma*t)). -/
noncomputable def expected_rate_spec (gamma t r_bar r_0 : ℝ) : ℝ :=
  r_0 * Real.exp (-(gamma * t)) + r_bar * (1 - Real.exp (-(gamma * t)))

/-- The rate-variance formula as written in the specification:
sigma^2 / (2*gamma) * (1 - exp(-2*gamma*t)). -/
noncomputable def rate_variance_spec (sigma gamma t : ℝ) : ℝ :=
  sigma ^ 2 / (2 * gamma) * (1 - Real.exp (-(2 * gamma * t)))

/-- Modelled from the spec: the standard normal cumulative distribution
function Φ, which the source takes from the scipy library (norm.cdf) and is
therefore not part of the repository. Φ(x) is the measure of (-∞, x] under
the standard Gaussian on ℝ. -/
noncomputable def stdNormalCDF (x : ℝ) : ℝ :=
  (ProbabilityTheory.gaussianReal 0 1 (Set.Iic x)).toReal

/-- The inline negative-rate probability of the source,
norm.cdf(-mean / variance ** 0.5), with norm.cdf modelled as stdNormalCDF. -/
noncomputable def negative_rate_probability (mean variance : ℝ) : ℝ :=
  stdNormalCDF (-mean / Real.sqrt variance)

/-- C1: for every finite real gamma, t, r_bar, r_0, vasicek_expectation
returns exactly r_0 * exp(-gamma*t) + r_bar * (1 - exp(-gamma*t)), the
formula written in the specification. -/
theorem expected_rate_matches_spec (gamma t r_bar r_0 : ℝ) :
    vasicek_expectation gamma t r_bar r_0 = expected_rate_spec gamma t r_bar r_0 := by
  unfold vasicek_expectation expected_rate_spec
  rw [neg_mul]

/-- C2: for every real sigma, gamma > 0 and finite real t, vasicek_variance
returns exactly sigma^2 / (2*gamma) * (1 - exp(-2*gamma*t)), the formula
written in the specification. -/
theorem rate_variance_matches_spec (sigma gamma t : ℝ) (h : 0 < gamma) :
    vasicek_variance sigma gamma t = rate_variance_spec sigma gamma t := by
  unfold vasicek_variance rate_variance_spec
  rw [neg_mul, neg_mul]

theorem rate_variance_matches_spec_witness :
    0 < (1 : ℝ) ∧ vasicek_variance 1 1 0 = rate_variance_spec 1 1 0 :=
  ⟨by norm_num, rate_variance_matches_spec 1 1 0 (by norm_num)⟩

/-- C3: the division by 2*gamma in vasicek_variance is unguarded: in the
guarded total embedding, gamma = 0 reaches the error branch, while for every
gamma > 0 the error branch is unreached and the checked result agrees with
vasicek_variance, for every sigma and t. -/
theorem rate_variance_gamma_zero_guard (sigma gamma t : ℝ) (h : 0 < gamma) :
    vasicek_varianceChecked sigma 0 t = none ∧
    vasicek_varianceChecked sigma gamma t = some (vasicek_variance sigma gamma t) := by
  constructor
  · simp [vasicek_varianceChecked]
  · unfold vasicek_varianceChecked vasicek_variance
    rw [if_neg]
    intro hc
    nlinarith

theorem rate_variance_gamma_zero_guard_witness :
    vasicek_varianceChecked 1 0 1 = none ∧
    vasicek_varianceChecked 1 1 1 = some (vasicek_variance 1 1 1) :=
  rate_variance_gamma_zero_guard 1 1 1 (by norm_num)

/-- C4: for every gamma > 0 and all real r_bar, r_0, vasicek_expectation at
t = 0 returns r_0 exactly. -/
theorem expected_rate_at_time_zero (gamma r_bar r_0 : ℝ) (h : 0 < gamma) :
    vasicek_expectation gamma 0 r_bar r_0 = r_0 := by
  unfold vasicek_expectation
  simp

theorem expected_rate_at_time_zero_witness :
    0 < (1 : ℝ) ∧ vasicek_expectation 1 0 2 3 = 3 :=
  ⟨by norm_num, expected_rate_at_time_zero 1 2 3 (by norm_num)⟩

/-- C5: for every real sigma, gamma > 0 and t ≥ 0, vasicek_variance is
non-negative. -/
theorem rate_variance_nonneg (sigma gamma t : ℝ) (hg : 0 < gamma) (ht : 0 ≤ t) :
    0 ≤ vasicek_variance sigma gamma t := by
  unfold vasicek_variance
  have h1 : Real.exp (-2 * gamma * t) ≤ 1 := Real.exp_le_one_iff.mpr (by nlinarith)
  have h2 : 0 ≤ sigma ^ 2 / (2 * gamma) := by positivity
  nlinarith

theorem rate_variance_nonneg_witness :
    0 < (1 : ℝ) ∧ 0 ≤ (1 : ℝ) ∧ 0 ≤ vasicek_variance 1 1 1 :=
  ⟨by norm_num, by norm_num, rate_variance_nonneg 1 1 1 (by norm_num) (by norm_num)⟩

/-- C6: for every real mean and variance > 0, negative_rate_probability
computes Φ(-mean / sqrt(variance)) with Φ the standard normal CDF, and the
result lies in [0, 1]. -/
theorem negative_rate_probability_range (mean variance : ℝ) (h : 0 < variance) :
    negative_rate_probability mean variance = stdNormalCDF (-mean / Real.sqrt variance) ∧
    0 ≤ negative_rate_probability mean variance ∧
    negative_rate_probability mean variance ≤ 1 := by
  refine ⟨rfl, ENNReal.toReal_nonneg, ?_⟩
  unfold negative_rate_probability stdNormalCDF
  calc (ProbabilityTheory.gaussianReal 0 1 (Set.Iic (-mean / Real.sqrt variance))).toReal
      ≤ (1 : ENNReal).toReal := ENNReal.toReal_mono ENNReal.one_ne_top MeasureTheory.prob_le_one
    _ = 1 := ENNReal.one_toReal

theorem negative_rate_probability_range_witness :
    0 < (1 : ℝ) ∧
    (negative_rate_probability 0 1 = stdNormalCDF (-0 / Real.sqrt 1) ∧
    0 ≤ negative_rate_probability 0 1 ∧ negative_rate_probability 0 1 ≤ 1) :=
  ⟨by norm_num, negative_rate_probability_range 0 1 (by norm_num)⟩

/-- C7: vasicek_expectation has no division and is well-defined at gamma = 0,
where it reduces to r_0 for every t, r_bar, r_0. -/
theorem expected_rate_gamma_zero (t r_bar r_0 : ℝ) :
    vasicek_expectation 0 t r_bar r_0 = r_0 := by
  unfold vasicek_expectation
  simp

/-- C8 counterexample: the claim quantifies over every real r_bar, r_0, but at
gamma = 0.25, t = 1000, r_bar = 0 and r_0 = exp 300 the result exceeds 1e-6 in
distance from r_bar, since exp 300 * exp (-250) = exp 50 > 1. -/
theorem expected_rate_large_t_cex :
    0 < (0.25 : ℝ) ∧
    ¬ |vasicek_expectation 0.25 1000 0 (Real.exp 300) - 0| < 1e-6 := by
  refine ⟨by norm_num, ?_⟩
  have h : vasicek_expectation 0.25 1000 0 (Real.exp 300) = Real.exp 50 := by
    unfold vasicek_expectation
    rw [show (-0.25 : ℝ) * 1000 = -250 by norm_num, ← Real.exp_add]
    norm_num
  rw [h, sub_zero, abs_of_pos (Real.exp_pos _)]
  push_neg
  calc (1e-6 : ℝ) ≤ 1 := by norm_num
    _ ≤ Real.exp 50 := by
        rw [← Real.exp_zero]
        exact Real.exp_le_exp.mpr (by norm_num)

/-- C8 amended: for every gamma > 0 and all real r_bar, r_0,
vasicek_expectation tends to r_bar as t tends to infinity; and at
gamma = 0.25, t = 1000, whenever the initial distance satisfies
the bound abs (r_0 - r_bar) ≤ 1, the result is within 1e-6 of r_bar. -/
theorem expected_rate_tendsto_rbar (gamma r_bar r_0 : ℝ) (h : 0 < gamma) :
    Filter.Tendsto (fun t => vasicek_expectation gamma t r_bar r_0)
      Filter.atTop (nhds r_bar) ∧
    (|r_0 - r_bar| ≤ 1 → |vasicek_expectation 0.25 1000 r_bar r_0 - r_bar| < 1e-6) := by
  constructor
  · have h1 : Filter.Tendsto (fun t : ℝ => -gamma * t) Filter.atTop Filter.atBot :=
      Filter.Tendsto.const_mul_atTop_of_neg (neg_lt_zero.mpr h) tendsto_id
    have h2 : Filter.Tendsto (fun t : ℝ => Real.exp (-gamma * t))
        Filter.atTop (nhds 0) := Real.tendsto_exp_atBot.comp h1
    have hone : Filter.Tendsto (fun _ : ℝ => (1 : ℝ)) Filter.atTop (nhds 1) :=
      tendsto_const_nhds
    have h3 := (h2.const_mul r_0).add ((hone.sub h2).const_mul r_bar)
    simpa [vasicek_expectation] using h3
  · intro hb
    have key : vasicek_expectation 0.25 1000 r_bar r_0 - r_bar
        = (r_0 - r_bar) * Real.exp (-250) := by
      unfold vasicek_expectation
      rw [show (-0.25 : ℝ) * 1000 = -250 by norm_num]
      ring
    have hexp : Real.exp (-250) < 1e-6 := by
      rw [Real.exp_neg]
      have h2exp : (2 : ℝ) ^ (250 : ℕ) ≤ Real.exp 250 := by
        calc (2 : ℝ) ^ (250 : ℕ) ≤ Real.exp 1 ^ (250 : ℕ) :=
            pow_le_pow_left₀ (by norm_num)
              (le_trans (by norm_num) Real.exp_one_gt_d9.le) _
          _ = Real.exp 250 := by
              rw [← Real.exp_nat_mul]
              norm_num
      have hbig : (1000000 : ℝ) < Real.exp 250 := lt_of_lt_of_le (by norm_num) h2exp
      rw [show (1e-6 : ℝ) = ((1000000 : ℝ))⁻¹ by norm_num]
      exact inv_strictAnti₀ (by norm_num) hbig
    rw [key, abs_mul, abs_of_pos (Real.exp_pos _)]
    calc |r_0 - r_bar| * Real.exp (-250) ≤ 1 * Real.exp (-250) :=
        mul_le_mul_of_nonneg_right hb (Real.exp_pos _).le
      _ = Real.exp (-250) := one_mul _
      _ < 1e-6 := hexp

theorem expected_rate_tendsto_rbar_witness :
    0 < (1 : ℝ) ∧
    (Filter.Tendsto (fun t => vasicek_expectation 1 t 0 0)
      Filter.atTop (nhds 0) ∧
    (|(0 : ℝ) - 0| ≤ 1 → |vasicek_expectation 0.25 1000 0 0 - 0| < 1e-6)) :=
  ⟨by norm_num, expected_rate_tendsto_rbar 1 0 0 (by norm_num)⟩

/-- C9: vasicek_variance is monotone non-decreasing in t: for every real
sigma, every gamma > 0 and all 0 ≤ t1 ≤ t2, the variance at t1 is at most the
variance at t2. -/
theorem rate_variance_monotone (sigma gamma t1 t2 : ℝ) (hg : 0 < gamma)
    (ht1 : 0 ≤ t1) (ht : t1 ≤ t2) :
    vasicek_variance sigma gamma t1 ≤ vasicek_variance sigma gamma t2 := by
  unfold vasicek_variance
  have hc : 0 ≤ sigma ^ 2 / (2 * gamma) := by positivity
  have he : Real.exp (-2 * gamma * t2) ≤ Real.exp (-2 * gamma * t1) :=
    Real.exp_le_exp.mpr (by nlinarith)
  nlinarith

theorem rate_variance_monotone_witness :
    0 < (1 : ℝ) ∧ 0 ≤ (0 : ℝ) ∧ (0 : ℝ) ≤ 1 ∧
    vasicek_variance 1 1 0 ≤ vasicek_variance 1 1 1 :=
  ⟨by norm_num, by norm_num, by norm_num,
    rate_variance_monotone 1 1 0 1 (by norm_num) (by norm_num) (by norm_num)⟩

/-- C10: vasicek_expectation is a convex combination of r_0 and r_bar: for
every gamma ≥ 0, t ≥ 0 and real r_bar, r_0, the result lies between
min r_0 r_bar and max r_0 r_bar. -/
theorem expected_rate_convex (gamma t r_bar r_0 : ℝ) (hg : 0 ≤ gamma) (ht : 0 ≤ t) :
    min r_0 r_bar ≤ vasicek_expectation gamma t r_bar r_0 ∧
    vasicek_expectation gamma t r_bar r_0 ≤ max r_0 r_bar := by
  unfold vasicek_expectation
  have h1 : Real.exp (-gamma * t) ≤ 1 := Real.exp_le_one_iff.mpr (by nlinarith)
  have h0 : 0 < Real.exp (-gamma * t) := Real.exp_pos _
  constructor
  · rcases le_total r_0 r_bar with hcmp | hcmp
    · rw [min_eq_left hcmp]
      nlinarith [mul_nonneg (sub_nonneg.mpr hcmp) (sub_nonneg.mpr h1)]
    · rw [min_eq_right hcmp]
      nlinarith [mul_nonneg (sub_nonneg.mpr hcmp) h0.le]
  · rcases le_total r_0 r_bar with hcmp | hcmp
    · rw [max_eq_right hcmp]
      nlinarith [mul_nonneg (sub_nonneg.mpr hcmp) h0.le]
    · rw [max_eq_left hcmp]
      nlinarith [mul_nonneg (sub_nonneg.mpr hcmp) (sub_nonneg.mpr h1)]

theorem expected_rate_convex_witness :
    0 ≤ (1 : ℝ) ∧ 0 ≤ (1 : ℝ) ∧
    (min (2 : ℝ) 3 ≤ vasicek_expectation 1 1 3 2 ∧
    vasicek_expectation 1 1 3 2 ≤ max (2 : ℝ) 3) :=
  ⟨by norm_num, by norm_num, expected_rate_convex 1 1 3 2 (by norm_num) (by norm_num)⟩

end Vasicek
